import Mathlib

/-!
Verification of the bento_log_service log registry and bounded-tail
retrieval logic (`bento_log_service/app.py`), as a shallow embedding:
file contents are lists of characters, the filesystem is an explicit map
from paths to file states, and Python dictionaries are association lists
with last-wins lookup.
-/

namespace BentoLog

/-! ## Data model

A `LogSource` embeds the Python dicts `{"service": ..., "logs": {...}}`
used by `SYSTEM_LOGS` / `SERVICE_LOGS`; the `logs` mapping is an
association list of (log name, absolute path). -/

structure LogSource where
  service : String
  logs : List (String × String)
deriving Repr, DecidableEq

/-- Embeds lookup in a Python dict built as `{s["service"]: s for s in ss}`:
for duplicate keys the last entry wins. -/
def pyDictLookup (ss : List LogSource) (k : String) : Option LogSource :=
  (ss.filter (fun s => s.service == k)).getLast?

/-- Embeds lookup in the `logs` dict of a source (last-wins for duplicate
keys, as in a Python dict comprehension). -/
def logsLookup (logs : List (String × String)) (k : String) : Option String :=
  ((logs.filter (fun p => p.1 == k)).getLast?).map Prod.snd

/-! ## TailReader: line iteration and the bounded line buffer

`for line in lf` iterates the text of the file as lines, each line keeping
its terminating newline; a final segment with no newline is yielded as-is
(and an empty final segment is not yielded). -/

/-- Helper for `linesKeep`: `acc` holds the characters of the current
(unfinished) line, in reverse. -/
def linesKeepAux (acc : List Char) : List Char → List (List Char)
  | [] => if acc.isEmpty then [] else [acc.reverse]
  | c :: rest =>
    if c = '\n' then (acc.reverse ++ [c]) :: linesKeepAux [] rest
    else linesKeepAux (c :: acc) rest

/-- Splits file text into lines the way Python's file iteration does:
each line includes its trailing newline; the final partial line (if any)
has none. -/
def linesKeep (s : List Char) : List (List Char) := linesKeepAux [] s

/-- One iteration of the read loop in `_log_bytes_endpoint`:
`lines.append(line)` followed by `if len(lines) > LINES_LIMIT: lines = lines[1:]`. -/
def tailStep (limit : Nat) (buf : List (List Char)) (line : List Char) :
    List (List Char) :=
  let l := buf ++ [line]
  if limit < l.length then l.drop 1 else l

/-- The final state of the sliding line buffer after the whole read loop. -/
def tailBuffer (limit : Nat) (ls : List (List Char)) : List (List Char) :=
  ls.foldl (tailStep limit) []

/-- `"".join(lines)` on the final buffer: the body returned on a successful
read of text `s` with line ceiling `limit`. -/
def tailJoin (limit : Nat) (s : List Char) : List Char :=
  (tailBuffer limit (linesKeep s)).flatten

/-! ## Filesystem model and TailReader results -/

/-- What opening and reading a path can observe: the text of the file, a
`FileNotFoundError`, or any other `OSError` (permission denied, path is a
directory, ...). -/
inductive FileState where
  | content (text : List Char)
  | missing
  | unreadable (err : String)

/-- A read-time snapshot of the filesystem. -/
def FS := String → FileState

inductive ReadResult where
  | ok (body : List Char)
  | notFound
  | ioError (err : String)
deriving Repr, DecidableEq

/-- The TailReader: open the file at `path` and run the bounded-buffer read
loop of `_log_bytes_endpoint`, classifying the two failure modes. -/
def readTail (fs : FS) (path : String) (limit : Nat) : ReadResult :=
  match fs path with
  | .content text => .ok (tailJoin limit text)
  | .missing => .notFound
  | .unreadable err => .ioError err

/-! ## URL building: model of `urllib.parse.urljoin`

`_log_to_endpoint_value` computes
`urljoin(SERVICE_URL, f"{log_base_path}/{s['service']}/{log}")`.
The model below follows CPython's `urljoin`/`urlparse`/`urlunsplit`,
restricted to the shape of that call site: the base URL has the form
`scheme://netloc/path` with no parameters, query or fragment, and the
reference carries no scheme or authority of its own (it never starts with
`/`, `//` or `scheme:` because the routes pass `log_base_path` values
`"system-logs"` / `"service-logs"`). -/

/-- `l.split(c, 1)` collapsed to (before, after): `after` is `[]` both when
`c` is absent and when nothing follows it, exactly the cases Python's
falsy-`''` tests conflate. -/
def splitFirstOcc (c : Char) (l : List Char) : List Char × List Char :=
  (l.takeWhile (fun x => x ≠ c), (l.dropWhile (fun x => x ≠ c)).drop 1)

/-- The suffix of `l` after its last occurrence of `c` (all of `l` if `c`
is absent). -/
def afterLastOcc (c : Char) (l : List Char) : List Char :=
  (l.reverse.takeWhile (fun x => x ≠ c)).reverse

/-- Model of `urlparse`'s parameter split: when `;` occurs, split the last
path segment at its first `;` (no-op if the `;` sits before the last `/`). -/
def splitParams (u : List Char) : List Char × List Char :=
  if ';' ∈ u then
    if '/' ∈ u then
      let b := afterLastOcc '/' u
      if ';' ∈ b then
        (u.take (u.length - b.length) ++ b.takeWhile (fun x => x ≠ ';'),
         (b.dropWhile (fun x => x ≠ ';')).drop 1)
      else (u, [])
    else splitFirstOcc ';' u
  else (u, [])

/-- Python's `str.split(c)`: always nonempty, `"" ↦ [""]`. -/
def splitSep (c : Char) : List Char → List (List Char)
  | [] => [[]]
  | x :: xs =>
    if x = c then [] :: splitSep c xs
    else
      match splitSep c xs with
      | [] => [[x]]
      | h :: t => (x :: h) :: t

/-- `segments[1:-1] = filter(None, segments[1:-1])`: drop empty segments,
keeping the first and last untouched. -/
def midFilter (ss : List (List Char)) : List (List Char) :=
  match ss with
  | [] => []
  | [a] => [a]
  | a :: rest =>
    a :: ((rest.dropLast.filter (fun s => !s.isEmpty)) ++ rest.drop (rest.length - 1))

/-- One step of `urljoin`'s dot-segment resolution loop: `..` pops the last
resolved segment (ignored on empty), `.` is skipped, anything else appended. -/
def resolveStep (acc : List (List Char)) (seg : List Char) : List (List Char) :=
  if seg = ['.', '.'] then acc.dropLast
  else if seg = ['.'] then acc
  else acc ++ [seg]

def resolveSegs (segs : List (List Char)) : List (List Char) :=
  segs.foldl resolveStep []

/-- Model of `urlunsplit` (with the path already carrying any `;params`). -/
def unsplitModel (scheme netloc u query frag : List Char) : List Char :=
  let u1 :=
    if netloc ≠ [] ∨ u.take 2 = ['/', '/'] then
      ['/', '/'] ++ netloc ++ (if u ≠ [] ∧ u.head? ≠ some '/' then '/' :: u else u)
    else u
  let u2 := if scheme ≠ [] then scheme ++ ':' :: u1 else u1
  let u3 := if query ≠ [] then u2 ++ '?' :: query else u2
  if frag ≠ [] then u3 ++ '#' :: frag else u3

/-- `urljoin` on a pre-parsed base `(scheme, netloc, bpath)` and a
scheme-less, authority-less reference `ref`. -/
def urljoinParts (scheme netloc bpath ref : List Char) : List Char :=
  let s1 := splitFirstOcc '#' ref
  let s2 := splitFirstOcc '?' s1.1
  let s3 := splitParams s2.1
  let frag := s1.2
  let query := s2.2
  let rpath := s3.1
  let params := s3.2
  if rpath = [] ∧ params = [] then
    unsplitModel scheme netloc bpath query frag
  else
    let bs := splitSep '/' bpath
    let bparts := if bs.getLast? = some [] then bs else bs.dropLast
    let segments :=
      if rpath.head? = some '/' then splitSep '/' rpath
      else midFilter (bparts ++ splitSep '/' rpath)
    let resolved := resolveSegs segments
    let resolved2 :=
      if segments.getLast? = some ['.'] ∨ segments.getLast? = some ['.', '.'] then
        resolved ++ [[]]
      else resolved
    let pj := List.intercalate ['/'] resolved2
    let path2 := if pj = [] then ['/'] else pj
    let pathP := if params ≠ [] then path2 ++ ';' :: params else path2
    unsplitModel scheme netloc pathP query frag

/-- Parse a base of the form `scheme://netloc/path` into its three parts. -/
def parseBase (b : List Char) : List Char × List Char × List Char :=
  let scheme := b.takeWhile (fun x => x ≠ ':')
  let rest := (b.dropWhile (fun x => x ≠ ':')).drop 1
  if rest.take 2 = ['/', '/'] then
    let r := rest.drop 2
    (scheme, r.takeWhile (fun x => x ≠ '/'), r.dropWhile (fun x => x ≠ '/'))
  else (scheme, [], rest)

/-- `urljoin(base, ref)` under the restrictions stated above. -/
def urljoinModel (base ref : String) : String :=
  if base.data = [] then ref
  else if ref.data = [] then base
  else
    let p := parseBase base.data
    ⟨urljoinParts p.1 p.2.1 p.2.2 ref.data⟩

/-! ## LogHttpFacade -/

/-- The URL built for one log entry in `_log_to_endpoint_value`:
`urljoin(SERVICE_URL, f"{log_base_path}/{s['service']}/{log}")`. -/
def endpointUrl (serviceUrl logBasePath service log : String) : String :=
  urljoinModel serviceUrl (logBasePath ++ "/" ++ service ++ "/" ++ log)

/-- `_log_to_endpoint_value`: same source, each log name remapped to its
fully-qualified URL. -/
def logToEndpointValue (serviceUrl : String) (s : LogSource) (logBasePath : String) :
    LogSource :=
  { s with logs := s.logs.map (fun p => (p.1, endpointUrl serviceUrl logBasePath s.service p.1)) }

inductive ServiceEndpointResult where
  | notFoundError (message : String)
  | view (v : LogSource)
deriving Repr, DecidableEq

/-- `_logs_service_endpoint`: describe one service or 404 with message. -/
def logsServiceEndpoint (serviceUrl : String) (logDict : List LogSource)
    (service : String) (logBasePath : String) : ServiceEndpointResult :=
  if service = "" then .notFoundError ("Could not find service '" ++ service ++ "'")
  else
    match pyDictLookup logDict service with
    | none => .notFoundError ("Could not find service '" ++ service ++ "'")
    | some s => .view (logToEndpointValue serviceUrl s logBasePath)

/-- What a request handler invocation produces: an HTTP response, or an
exception escaping the handler. -/
inductive Outcome where
  | response (status : Nat) (body : List Char)
  | raised (err : String)
deriving Repr, DecidableEq

/-- `_log_bytes_endpoint`: guard (empty/unknown service or log name gives a
bodyless 404), then the tail read; `FileNotFoundError` is caught and turned
into a bodyless 500, any other `OSError` escapes the handler. -/
def logBytesEndpoint (fs : FS) (limit : Nat) (logDict : List LogSource)
    (service log : String) : Outcome :=
  if service = "" then .response 404 []
  else
    match pyDictLookup logDict service with
    | none => .response 404 []
    | some src =>
      if log = "" then .response 404 []
      else
        match logsLookup src.logs log with
        | none => .response 404 []
        | some filePath =>
          match readTail fs filePath limit with
          | .ok body => .response 200 body
          | .notFound => .response 500 []
          | .ioError err => .raised err

/-- The registered generic catch-all (`register_error_handler(Exception, ...)`)
turns any escaped exception into an opaque 500. -/
def handleRequest (o : Outcome) : Nat × List Char :=
  match o with
  | .response st b => (st, b)
  | .raised _ => (500, [])

/-! ## Catalog construction (PathResolver + LogRegistry) -/

/-- `SERVICE_LOGS_TEMPLATE.format(service_artifact=...)`. -/
def serviceLogsTemplate (serviceArtifact : String) : String :=
  "/chord/tmp/logs/" ++ serviceArtifact ++ "/"

/-- External service descriptor: `{"type": {"artifact": ...}, "disabled": ...}`. -/
structure ServiceDescriptor where
  artifact : String
  disabled : Bool
deriving Repr, DecidableEq

/-- Model of `os.walk` at depth one: `none` when the directory does not
exist (in which case `next(os.walk(d), ((), (), ()))[2]` yields `()`). -/
def Walk := String → Option (List String)

/-- `_get_service_dir_and_files`. -/
def getServiceDirAndFiles (walk : Walk) (serviceArtifact : String) :
    String × List String :=
  let directory := serviceLogsTemplate serviceArtifact
  (directory, (walk directory).getD [])

/-- `os.path.join` for the two-argument POSIX case used here. -/
def osPathJoin (a b : String) : String :=
  if b.data.head? = some '/' then b
  else if a = "" ∨ a.data.getLast? = some '/' then a ++ b
  else a ++ "/" ++ b

/-- `CHORD_SERVICES`: the descriptor list with disabled services skipped. -/
def chordServices (descriptors : List ServiceDescriptor) : List ServiceDescriptor :=
  descriptors.filter (fun s => !s.disabled)

/-- `SERVICE_LOGS`: one LogSource per non-disabled descriptor, keyed by its
artifact, pairing each discovered basename with directory + basename. -/
def serviceLogs (walk : Walk) (descriptors : List ServiceDescriptor) :
    List LogSource :=
  (chordServices descriptors).map (fun s =>
    let df := getServiceDirAndFiles walk s.artifact
    { service := s.artifact,
      logs := df.2.map (fun fn => (fn, osPathJoin df.1 fn)) })

/-! ## Concrete instances used by witnesses and counterexamples -/

def exDict : List LogSource :=
  [{ service := "svc", logs := [("a.log", "/chord/tmp/logs/svc/a.log")] }]

def fsAllMissing : FS := fun _ => FileState.missing

def fsAllDenied : FS := fun _ => FileState.unreadable "Permission denied"

def fiveLines : List Char := "l1\nl2\nl3\nl4\nl5\n".data

def fsFive : FS := fun _ => FileState.content fiveLines

def twoLines : List Char := "first\nsecond\n".data

def fsTwo : FS := fun _ => FileState.content twoLines

def exDescriptors : List ServiceDescriptor :=
  [{ artifact := "svcA", disabled := false }, { artifact := "disabled-svc", disabled := true }]

def exWalk : Walk := fun d => if d = "/chord/tmp/logs/svcA/" then some ["a.log"] else none

def walkNone : Walk := fun _ => none

def exSourceHash : LogSource :=
  { service := "svc",
    logs := [("a", "/chord/tmp/logs/svc/a"), ("a#", "/chord/tmp/logs/svc/a#")] }

/-- A string usable as a plain URL path segment: nonempty, not a dot
segment, and free of the path / parameter / query / fragment delimiters
that `urljoin` interprets. -/
def plainSeg (s : String) : Prop :=
  s.data ≠ [] ∧ s.data ≠ ['.'] ∧ s.data ≠ ['.', '.'] ∧
  ∀ c ∈ s.data, c ≠ '/' ∧ c ≠ ';' ∧ c ≠ '?' ∧ c ≠ '#'

/-- The `scheme://netloc` part that `unsplitModel` puts in front of an
absolute path. -/
def urlHeader (scheme netloc : List Char) : List Char :=
  (if scheme = [] then [] else scheme ++ [':']) ++
  (if netloc = [] then [] else '/' :: '/' :: netloc)

/-! ## TailReader lemmas -/

theorem linesKeepAux_flatten (s : List Char) :
    ∀ acc : List Char, (linesKeepAux acc s).flatten = acc.reverse ++ s := by
  induction s with
  | nil =>
    intro acc
    by_cases h : acc.isEmpty
    · simp [linesKeepAux, h, List.isEmpty_iff.mp h]
    · simp [linesKeepAux, h]
  | cons c rest ih =>
    intro acc
    by_cases h : c = '\n'
    · simp [linesKeepAux, h, ih]
    · simp [linesKeepAux, h, ih (c :: acc)]

/-- Concatenating the lines of a text gives back the text. -/
theorem linesKeep_flatten (s : List Char) : (linesKeep s).flatten = s := by
  simpa using linesKeepAux_flatten s []

theorem tailBuffer_snoc (limit : Nat) (ls : List (List Char)) (x : List Char) :
    tailBuffer limit (ls ++ [x]) = tailStep limit (tailBuffer limit ls) x := by
  simp [tailBuffer, List.foldl_append]

/-- Closed form of the sliding buffer: after processing all lines it holds
exactly the last `limit` of them (all of them, if there are fewer). -/
theorem tailBuffer_eq (limit : Nat) (ls : List (List Char)) :
    tailBuffer limit ls = ls.drop (ls.length - limit) := by
  induction ls using List.reverseRecOn with
  | nil => simp [tailBuffer]
  | append_singleton l x ih =>
    rw [tailBuffer_snoc, ih, tailStep]
    by_cases h : limit ≤ l.length
    · have hlen : (l.drop (l.length - limit)).length = limit := by
        simp [List.length_drop]; omega
      have hcond : limit < (l.drop (l.length - limit) ++ [x]).length := by
        simp [hlen]
      simp only [hcond, if_pos]
      rcases Nat.eq_zero_or_pos limit with hz | hpos
      · subst hz
        simp [List.drop_length]
      · have e1 : (l.drop (l.length - limit) ++ [x]).drop 1
            = (l.drop (l.length - limit)).drop 1 ++ [x] :=
          List.drop_append_of_le_length (by rw [hlen]; omega)
        have e2 : (l.drop (l.length - limit)).drop 1 = l.drop (l.length - limit + 1) := by
          rw [List.drop_drop]
        have e3 : (l ++ [x]).drop ((l ++ [x]).length - limit)
            = l.drop ((l ++ [x]).length - limit) ++ [x] :=
          List.drop_append_of_le_length (by simp; omega)
        rw [e1, e2, e3]
        have e4 : l.length - limit + 1 = (l ++ [x]).length - limit := by simp; omega
        rw [e4]
    · push_neg at h
      have h0 : l.length - limit = 0 := by omega
      have hcond : ¬ limit < (l.drop (l.length - limit) ++ [x]).length := by
        simp [h0]; omega
      simp only [hcond, if_neg, not_false_iff]
      have h1 : l.length + 1 - limit = 0 := by omega
      simp [h0, h1]

/-- The buffer length never exceeds the ceiling. -/
theorem tailBuffer_length_le (limit : Nat) (ls : List (List Char)) :
    (tailBuffer limit ls).length ≤ limit := by
  rw [tailBuffer_eq]
  simp [List.length_drop]
  omega

/-- C3: for a readable file whose number of lines exceeds `maxLines`,
`readTail` returns exactly the last `maxLines` lines, in original order,
byte-identical to the tail of the source text (the dropped prefix plus the
returned body reassemble the text). -/
theorem readTail_over_limit_last_lines (fs : FS) (path : String) (text : List Char)
    (maxLines : Nat) (hfile : fs path = FileState.content text)
    (hover : maxLines < (linesKeep text).length) :
    readTail fs path maxLines
      = ReadResult.ok (((linesKeep text).drop ((linesKeep text).length - maxLines)).flatten)
    ∧ ((linesKeep text).drop ((linesKeep text).length - maxLines)).length = maxLines
    ∧ ((linesKeep text).take ((linesKeep text).length - maxLines)).flatten
        ++ ((linesKeep text).drop ((linesKeep text).length - maxLines)).flatten = text := by
  refine ⟨?_, ?_, ?_⟩
  · simp [readTail, hfile, tailJoin, tailBuffer_eq]
  · simp [List.length_drop]
    omega
  · rw [← List.flatten_append, List.take_append_drop, linesKeep_flatten]

/-- Witness for C3: Scenario D, a 5-line file with `maxLines = 3` returns
exactly lines 3, 4, 5 in order. -/
theorem readTail_over_limit_last_lines_witness :
    fsFive "/chord/tmp/logs/svc/a.log" = FileState.content fiveLines
    ∧ 3 < (linesKeep fiveLines).length
    ∧ readTail fsFive "/chord/tmp/logs/svc/a.log" 3 = ReadResult.ok ("l3\nl4\nl5\n".data) :=
  ⟨rfl, by decide,
    ((readTail_over_limit_last_lines fsFive "/chord/tmp/logs/svc/a.log" fiveLines 3
      rfl (by decide)).1).trans (by decide)⟩

/-- C4: for a readable file with at most `maxLines` lines, `readTail`
returns the file text unchanged (all lines, in order, newlines as read). -/
theorem readTail_within_limit_identity (fs : FS) (path : String) (text : List Char)
    (maxLines : Nat) (hfile : fs path = FileState.content text)
    (hle : (linesKeep text).length ≤ maxLines) :
    readTail fs path maxLines = ReadResult.ok text := by
  have h0 : (linesKeep text).length - maxLines = 0 := by omega
  simp [readTail, hfile, tailJoin, tailBuffer_eq, h0, linesKeep_flatten]

/-- Witness for C4: a 2-line file read with the default ceiling 1000 comes
back unchanged. -/
theorem readTail_within_limit_identity_witness :
    fsTwo "/chord/tmp/logs/svc/a.log" = FileState.content twoLines
    ∧ (linesKeep twoLines).length ≤ 1000
    ∧ readTail fsTwo "/chord/tmp/logs/svc/a.log" 1000 = ReadResult.ok twoLines :=
  ⟨rfl, by decide,
    readTail_within_limit_identity fsTwo "/chord/tmp/logs/svc/a.log" twoLines 1000
      rfl (by decide)⟩

/-- C5: at every point of the read loop — i.e. after any prefix of the
file's lines has been processed — the line buffer holds at most `maxLines`
lines, so the retained structure is bounded by the ceiling, not by the
file size. -/
theorem read_buffer_bounded (maxLines : Nat) (text : List Char)
    (p : List (List Char)) (_hp : p <+: linesKeep text) :
    (p.foldl (tailStep maxLines) []).length ≤ maxLines :=
  tailBuffer_length_le maxLines p

/-- Witness for C5: the first 4 lines of the 5-line file, with ceiling 3. -/
theorem read_buffer_bounded_witness :
    (linesKeep fiveLines).take 4 <+: linesKeep fiveLines
    ∧ (((linesKeep fiveLines).take 4).foldl (tailStep 3) []).length ≤ 3 :=
  ⟨List.take_prefix 4 _,
    read_buffer_bounded 3 fiveLines ((linesKeep fiveLines).take 4) (List.take_prefix 4 _)⟩

/-- C6: an empty or unknown service id, or an empty or unknown log name,
makes `_log_bytes_endpoint` return a bodyless 404 response — an ordinary
response, never an escaped exception. -/
theorem fetch_unknown_404_no_crash (fs : FS) (limit : Nat)
    (logDict : List LogSource) (service log : String)
    (h : service = "" ∨ pyDictLookup logDict service = none ∨ log = ""
       ∨ ∀ src, pyDictLookup logDict service = some src → logsLookup src.logs log = none) :
    logBytesEndpoint fs limit logDict service log = Outcome.response 404 [] := by
  by_cases hs : service = ""
  · simp [logBytesEndpoint, hs]
  cases hl : pyDictLookup logDict service with
  | none => simp [logBytesEndpoint, hs, hl]
  | some src =>
    by_cases hg : log = ""
    · simp [logBytesEndpoint, hs, hl, hg]
    rcases h with h | h | h | h
    · exact absurd h hs
    · rw [h] at hl
      exact absurd hl (by simp)
    · exact absurd h hg
    · simp [logBytesEndpoint, hs, hl, hg, h src hl]

/-- Witness for C6: Scenario B, an unknown service id yields 404. -/
theorem fetch_unknown_404_no_crash_witness :
    pyDictLookup exDict "unknown-service" = none
    ∧ logBytesEndpoint fsAllMissing 1000 exDict "unknown-service" "x.log"
        = Outcome.response 404 [] :=
  ⟨by decide,
    fetch_unknown_404_no_crash fsAllMissing 1000 exDict "unknown-service" "x.log"
      (Or.inr (Or.inl (by decide)))⟩

/-- C7: `_logs_service_endpoint` answers an empty or unknown service id
with a NotFoundError carrying exactly
`"Could not find service '<serviceId>'"`, and a (non-empty) service id
present in the catalog with that service's endpoint view. -/
theorem describeOne_message_and_view (serviceUrl : String) (logDict : List LogSource)
    (service logBasePath : String) :
    ((service = "" ∨ pyDictLookup logDict service = none) →
      logsServiceEndpoint serviceUrl logDict service logBasePath
        = ServiceEndpointResult.notFoundError ("Could not find service '" ++ service ++ "'"))
    ∧ (∀ src, service ≠ "" → pyDictLookup logDict service = some src →
      logsServiceEndpoint serviceUrl logDict service logBasePath
        = ServiceEndpointResult.view (logToEndpointValue serviceUrl src logBasePath)) := by
  constructor
  · rintro (h | h)
    · simp [logsServiceEndpoint, h]
    · by_cases hs : service = ""
      · simp [logsServiceEndpoint, hs]
      · simp [logsServiceEndpoint, hs, h]
  · intro src hs hl
    simp [logsServiceEndpoint, hs, hl]

/-- Witness for C7: the exact message for an unknown id, and the view for a
known one. -/
theorem describeOne_message_and_view_witness :
    (logsServiceEndpoint "http://127.0.0.1:5000/" exDict "unknown" "system-logs"
      = ServiceEndpointResult.notFoundError "Could not find service 'unknown'")
    ∧ (pyDictLookup exDict "svc"
        = some { service := "svc", logs := [("a.log", "/chord/tmp/logs/svc/a.log")] })
    ∧ (logsServiceEndpoint "http://127.0.0.1:5000/" exDict "svc" "system-logs"
      = ServiceEndpointResult.view (logToEndpointValue "http://127.0.0.1:5000/"
          { service := "svc", logs := [("a.log", "/chord/tmp/logs/svc/a.log")] }
          "system-logs")) :=
  ⟨(describeOne_message_and_view "http://127.0.0.1:5000/" exDict "unknown" "system-logs").1
      (Or.inr (by decide)),
   by decide,
   (describeOne_message_and_view "http://127.0.0.1:5000/" exDict "svc" "system-logs").2
      { service := "svc", logs := [("a.log", "/chord/tmp/logs/svc/a.log")] }
      (by decide) (by decide)⟩

/-- C8: the service catalog has exactly one entry per non-disabled
descriptor, keyed by its artifact and in input order; each entry's logs
pair the discovered basenames with directory + basename; and an id all of
whose descriptor occurrences are disabled is not in the catalog, so
describing it yields NotFoundError. -/
theorem serviceCatalog_construction (walk : Walk) (descriptors : List ServiceDescriptor) :
    ((serviceLogs walk descriptors).map LogSource.service
      = (descriptors.filter (fun s => !s.disabled)).map ServiceDescriptor.artifact)
    ∧ (∀ src ∈ serviceLogs walk descriptors,
        src.logs = ((walk (serviceLogsTemplate src.service)).getD []).map
          (fun fn => (fn, osPathJoin (serviceLogsTemplate src.service) fn)))
    ∧ (∀ serviceUrl logBasePath sid,
        (∀ d ∈ descriptors, d.artifact = sid → d.disabled = true) →
        logsServiceEndpoint serviceUrl (serviceLogs walk descriptors) sid logBasePath
          = ServiceEndpointResult.notFoundError ("Could not find service '" ++ sid ++ "'")) := by
  refine ⟨?_, ?_, ?_⟩
  · simp [serviceLogs, chordServices, getServiceDirAndFiles, List.map_map, Function.comp]
  · intro src hsrc
    simp only [serviceLogs, List.mem_map] at hsrc
    obtain ⟨d, _, rfl⟩ := hsrc
    rfl
  · intro serviceUrl logBasePath sid hall
    have hnone : pyDictLookup (serviceLogs walk descriptors) sid = none := by
      unfold pyDictLookup
      rw [List.filter_eq_nil_iff.mpr, List.getLast?_nil]
      intro src hsrc
      simp only [serviceLogs, chordServices, List.mem_map, List.mem_filter] at hsrc
      obtain ⟨d, ⟨hd, hnd⟩, rfl⟩ := hsrc
      simp only [beq_iff_eq]
      intro hsd
      have := hall d hd hsd
      simp [this] at hnd
    by_cases hs : sid = ""
    · simp [logsServiceEndpoint, hs]
    · simp [logsServiceEndpoint, hs, hnone]

/-- Witness for C8: Scenario E, a disabled service id missing from the
catalog built from `exDescriptors`. -/
theorem serviceCatalog_construction_witness :
    ((serviceLogs exWalk exDescriptors).map LogSource.service = ["svcA"])
    ∧ (∀ d ∈ exDescriptors, d.artifact = "disabled-svc" → d.disabled = true)
    ∧ logsServiceEndpoint "http://127.0.0.1:5000/" (serviceLogs exWalk exDescriptors)
        "disabled-svc" "service-logs"
        = ServiceEndpointResult.notFoundError "Could not find service 'disabled-svc'" :=
  ⟨((serviceCatalog_construction exWalk exDescriptors).1).trans (by decide),
   by decide,
   (serviceCatalog_construction exWalk exDescriptors).2.2 "http://127.0.0.1:5000/"
      "service-logs" "disabled-svc" (by decide)⟩

/-- C9: a non-disabled descriptor whose conventional log directory does not
exist still produces a catalog entry, with an empty logs mapping (catalog
construction is total, never a failure). -/
theorem missing_dir_empty_logs (walk : Walk) (descriptors : List ServiceDescriptor)
    (d : ServiceDescriptor) (hd : d ∈ descriptors) (hdis : d.disabled = false)
    (hwalk : walk (serviceLogsTemplate d.artifact) = none) :
    ∃ src ∈ serviceLogs walk descriptors, src.service = d.artifact ∧ src.logs = [] := by
  refine ⟨_, List.mem_map_of_mem _ (List.mem_filter.mpr ⟨hd, by simp [hdis]⟩), rfl, ?_⟩
  simp [getServiceDirAndFiles, hwalk]

/-- Witness for C9: Scenario C, a filesystem with no directories at all. -/
theorem missing_dir_empty_logs_witness :
    ({ artifact := "svcA", disabled := false } : ServiceDescriptor) ∈ exDescriptors
    ∧ walkNone (serviceLogsTemplate "svcA") = none
    ∧ ∃ src ∈ serviceLogs walkNone exDescriptors, src.service = "svcA" ∧ src.logs = [] :=
  ⟨by decide, rfl,
    missing_dir_empty_logs walkNone exDescriptors
      { artifact := "svcA", disabled := false } (by decide) rfl rfl⟩

/-- C1 counterexample: with the file at the resolved path absent at read
time, `_log_bytes_endpoint` answers 500, not the claimed 404. -/
theorem fetch_missing_file_not_404 :
    logBytesEndpoint fsAllMissing 1000 exDict "svc" "a.log" = Outcome.response 500 []
    ∧ Outcome.response 500 [] ≠ Outcome.response 404 [] :=
  ⟨rfl, by decide⟩

/-- C1 amended: when the resolved path's file does not exist at read time,
`_log_bytes_endpoint` catches the `FileNotFoundError` and returns a
bodyless ServerError 500 (after logging the path operator-side), not a 404. -/
theorem fetch_missing_file_gives_500 (fs : FS) (limit : Nat)
    (logDict : List LogSource) (service log : String) (src : LogSource)
    (filePath : String) (hs : service ≠ "")
    (hl : pyDictLookup logDict service = some src) (hg : log ≠ "")
    (hp : logsLookup src.logs log = some filePath)
    (hfs : fs filePath = FileState.missing) :
    logBytesEndpoint fs limit logDict service log = Outcome.response 500 [] := by
  simp [logBytesEndpoint, hs, hl, hg, hp, readTail, hfs]

/-- Witness for the amended C1. -/
theorem fetch_missing_file_gives_500_witness :
    fsAllMissing "/chord/tmp/logs/svc/a.log" = FileState.missing
    ∧ logBytesEndpoint fsAllMissing 1000 exDict "svc" "a.log" = Outcome.response 500 [] :=
  ⟨rfl,
    fetch_missing_file_gives_500 fsAllMissing 1000 exDict "svc" "a.log"
      { service := "svc", logs := [("a.log", "/chord/tmp/logs/svc/a.log")] }
      "/chord/tmp/logs/svc/a.log" (by decide) (by decide) (by decide) (by decide) rfl⟩

/-- C2 counterexample: an I/O failure other than file-not-found (here,
permission denied) is not handled inside `_log_bytes_endpoint` at all — the
exception escapes the handler instead of becoming a 500 response of the
handler itself. -/
theorem io_error_escapes_endpoint :
    logBytesEndpoint fsAllDenied 1000 exDict "svc" "a.log"
      = Outcome.raised "Permission denied"
    ∧ Outcome.raised "Permission denied" ≠ Outcome.response 500 [] :=
  ⟨rfl, by decide⟩

/-- C2 amended: an I/O failure other than file-not-found escapes
`_log_bytes_endpoint` as an exception; the application's registered
catch-all `Exception` handler then converts it to an opaque 500, so the
request as a whole still yields a 500 response. -/
theorem io_error_opaque_500_via_outer_handler (fs : FS) (limit : Nat)
    (logDict : List LogSource) (service log : String) (src : LogSource)
    (filePath err : String) (hs : service ≠ "")
    (hl : pyDictLookup logDict service = some src) (hg : log ≠ "")
    (hp : logsLookup src.logs log = some filePath)
    (hfs : fs filePath = FileState.unreadable err) :
    logBytesEndpoint fs limit logDict service log = Outcome.raised err
    ∧ handleRequest (logBytesEndpoint fs limit logDict service log) = (500, []) := by
  have h : logBytesEndpoint fs limit logDict service log = Outcome.raised err := by
    simp [logBytesEndpoint, hs, hl, hg, hp, readTail, hfs]
  exact ⟨h, by rw [h]; rfl⟩

/-- Witness for the amended C2. -/
theorem io_error_opaque_500_via_outer_handler_witness :
    fsAllDenied "/chord/tmp/logs/svc/a.log" = FileState.unreadable "Permission denied"
    ∧ logBytesEndpoint fsAllDenied 1000 exDict "svc" "a.log"
        = Outcome.raised "Permission denied"
    ∧ handleRequest (logBytesEndpoint fsAllDenied 1000 exDict "svc" "a.log") = (500, []) :=
  ⟨rfl,
   (io_error_opaque_500_via_outer_handler fsAllDenied 1000 exDict "svc" "a.log"
      { service := "svc", logs := [("a.log", "/chord/tmp/logs/svc/a.log")] }
      "/chord/tmp/logs/svc/a.log" "Permission denied"
      (by decide) (by decide) (by decide) (by decide) rfl).1,
   (io_error_opaque_500_via_outer_handler fsAllDenied 1000 exDict "svc" "a.log"
      { service := "svc", logs := [("a.log", "/chord/tmp/logs/svc/a.log")] }
      "/chord/tmp/logs/svc/a.log" "Permission denied"
      (by decide) (by decide) (by decide) (by decide) rfl).2⟩

/-! ## URL model lemmas -/

theorem splitFirstOcc_not_mem {c : Char} {l : List Char} (h : c ∉ l) :
    splitFirstOcc c l = (l, []) := by
  unfold splitFirstOcc
  have ht : l.takeWhile (fun x => x ≠ c) = l :=
    List.takeWhile_eq_self_iff.mpr (by
      intro x hx
      simp only [ne_eq, decide_eq_true_eq]
      rintro rfl
      exact h hx)
  have hd : l.dropWhile (fun x => x ≠ c) = [] :=
    List.dropWhile_eq_nil_iff.mpr (by
      intro x hx
      simp only [ne_eq, decide_eq_true_eq]
      rintro rfl
      exact h hx)
  rw [ht, hd]
  rfl

theorem splitParams_not_mem {u : List Char} (h : ';' ∉ u) :
    splitParams u = (u, []) := by
  simp [splitParams, h]

theorem splitSep_not_mem {c : Char} : ∀ {l : List Char}, c ∉ l → splitSep c l = [l]
  | [], _ => rfl
  | x :: xs, h => by
    have hx : ¬ x = c := fun e => h (e ▸ List.mem_cons_self x xs)
    have hxs : c ∉ xs := fun m => h (List.mem_cons_of_mem x m)
    simp [splitSep, hx, splitSep_not_mem hxs]

theorem splitSep_append {c : Char} : ∀ {a : List Char} (b : List Char), c ∉ a →
    splitSep c (a ++ c :: b) = a :: splitSep c b
  | [], b, _ => by simp [splitSep]
  | x :: xs, b, h => by
    have hx : ¬ x = c := fun e => h (e ▸ List.mem_cons_self x xs)
    have hxs : c ∉ xs := fun m => h (List.mem_cons_of_mem x m)
    simp [splitSep, hx, splitSep_append b hxs]

theorem resolveSegs_no_dots_aux :
    ∀ (segs acc : List (List Char)),
      (∀ s ∈ segs, s ≠ ['.'] ∧ s ≠ ['.', '.']) →
      segs.foldl resolveStep acc = acc ++ segs
  | [], acc, _ => by simp
  | s :: rest, acc, h => by
    have hs := h s (List.mem_cons_self s rest)
    have hstep : resolveStep acc s = acc ++ [s] := by
      simp [resolveStep, hs.1, hs.2]
    simp only [List.foldl_cons, hstep,
      resolveSegs_no_dots_aux rest (acc ++ [s]) (fun t ht => h t (List.mem_cons_of_mem s ht))]
    simp

theorem resolveSegs_no_dots {segs : List (List Char)}
    (h : ∀ s ∈ segs, s ≠ ['.'] ∧ s ≠ ['.', '.']) : resolveSegs segs = segs := by
  simpa using resolveSegs_no_dots_aux segs [] h

theorem takeWhile_until {c : Char} :
    ∀ {a : List Char} (b : List Char), c ∉ a →
      (a ++ c :: b).takeWhile (fun x => x ≠ c) = a
      ∧ (a ++ c :: b).dropWhile (fun x => x ≠ c) = c :: b
  | [], b, _ => by simp [List.takeWhile_cons, List.dropWhile_cons]
  | x :: xs, b, h => by
    have hx : ¬ x = c := fun e => h (e ▸ List.mem_cons_self x xs)
    have hxs : c ∉ xs := fun m => h (List.mem_cons_of_mem x m)
    have ih := takeWhile_until (a := xs) b hxs
    simp only [ne_eq, decide_not] at ih
    simp [List.takeWhile_cons, List.dropWhile_cons, hx, ih.1, ih.2]

/-- `parseBase` on a well-formed `scheme://netloc/...` base. -/
theorem parseBase_std (scheme netloc rest : List Char)
    (hs : ':' ∉ scheme) (hn : '/' ∉ netloc) :
    parseBase (scheme ++ ':' :: '/' :: '/' :: (netloc ++ '/' :: rest))
      = (scheme, netloc, '/' :: rest) := by
  have e1 := takeWhile_until (a := scheme) ('/' :: '/' :: (netloc ++ '/' :: rest)) hs
  have e2 := takeWhile_until (a := netloc) rest hn
  simp only [ne_eq, decide_not] at e1 e2
  simp only [parseBase]
  simp [e1.1, e1.2, e2.1, e2.2]

theorem midFilter_std (pd sd ld : List Char) (hp : pd.isEmpty = false)
    (hs : sd.isEmpty = false) :
    midFilter [[], [], pd, sd, ld] = [[], pd, sd, ld] := by
  simp [midFilter, hp, hs]

theorem intercalate_four (a b c d : List Char) :
    List.intercalate ['/'] [a, b, c, d] = a ++ '/' :: (b ++ '/' :: (c ++ '/' :: d)) := by
  simp [List.intercalate, List.intersperse]

theorem unsplitModel_abs_path (scheme netloc u : List Char) (hu : u.head? = some '/')
    (h2 : u.take 2 ≠ ['/', '/']) :
    unsplitModel scheme netloc u [] [] = urlHeader scheme netloc ++ u := by
  by_cases hnl : netloc = [] <;> by_cases hsc : scheme = [] <;>
    simp [unsplitModel, urlHeader, hnl, hsc, h2, hu, List.append_assoc]

/-- Evaluation of the URL resolution on a reference made of three plain
path segments against a `scheme://netloc/` base: no query, fragment,
parameter or dot-segment processing fires, and the result is the plain
concatenation. -/
theorem urljoinParts_plain (scheme netloc pd sd ld : List Char)
    (hpd : pd ≠ [] ∧ pd ≠ ['.'] ∧ pd ≠ ['.', '.'] ∧
      ∀ c ∈ pd, c ≠ '/' ∧ c ≠ ';' ∧ c ≠ '?' ∧ c ≠ '#')
    (hsd : sd ≠ [] ∧ sd ≠ ['.'] ∧ sd ≠ ['.', '.'] ∧
      ∀ c ∈ sd, c ≠ '/' ∧ c ≠ ';' ∧ c ≠ '?' ∧ c ≠ '#')
    (hld : ld ≠ [] ∧ ld ≠ ['.'] ∧ ld ≠ ['.', '.'] ∧
      ∀ c ∈ ld, c ≠ '/' ∧ c ≠ ';' ∧ c ≠ '?' ∧ c ≠ '#') :
    urljoinParts scheme netloc ['/'] (pd ++ '/' :: (sd ++ '/' :: ld))
      = urlHeader scheme netloc ++ ('/' :: (pd ++ ('/' :: (sd ++ ('/' :: ld))))) := by
  obtain ⟨hpne, hpd1, hpd2, hpch⟩ := hpd
  obtain ⟨hsne, hsd1, hsd2, hsch⟩ := hsd
  obtain ⟨hlne, hld1, hld2, hlch⟩ := hld
  have hpslash : '/' ∉ pd := fun hm => (hpch _ hm).1 rfl
  have hsslash : '/' ∉ sd := fun hm => (hsch _ hm).1 rfl
  have hlslash : '/' ∉ ld := fun hm => (hlch _ hm).1 rfl
  have hchars : ∀ c, c ∈ pd ++ '/' :: (sd ++ '/' :: ld) →
      c = '/' ∨ c ∈ pd ∨ c ∈ sd ∨ c ∈ ld := by
    intro c hc
    simp only [List.mem_append, List.mem_cons] at hc
    tauto
  have hnohash : '#' ∉ pd ++ '/' :: (sd ++ '/' :: ld) := by
    intro hm
    rcases hchars _ hm with h | h | h | h
    · exact absurd h (by decide)
    · exact (hpch _ h).2.2.2 rfl
    · exact (hsch _ h).2.2.2 rfl
    · exact (hlch _ h).2.2.2 rfl
  have hnoq : '?' ∉ pd ++ '/' :: (sd ++ '/' :: ld) := by
    intro hm
    rcases hchars _ hm with h | h | h | h
    · exact absurd h (by decide)
    · exact (hpch _ h).2.2.1 rfl
    · exact (hsch _ h).2.2.1 rfl
    · exact (hlch _ h).2.2.1 rfl
  have hnosemi : ';' ∉ pd ++ '/' :: (sd ++ '/' :: ld) := by
    intro hm
    rcases hchars _ hm with h | h | h | h
    · exact absurd h (by decide)
    · exact (hpch _ h).2.1 rfl
    · exact (hsch _ h).2.1 rfl
    · exact (hlch _ h).2.1 rfl
  have h1 := splitFirstOcc_not_mem hnohash
  have h2 := splitFirstOcc_not_mem hnoq
  have h3 := splitParams_not_mem hnosemi
  obtain ⟨c0, cs0, hc0⟩ := List.exists_cons_of_ne_nil hpne
  have hc0slash : c0 ≠ '/' := (hpch c0 (by rw [hc0]; exact List.mem_cons_self _ _)).1
  have hheadne : ¬ (pd ++ '/' :: (sd ++ '/' :: ld)).head? = some '/' := by
    rw [hc0]
    simp [hc0slash]
  have hsplit : splitSep '/' (pd ++ '/' :: (sd ++ '/' :: ld)) = [pd, sd, ld] := by
    rw [splitSep_append _ hpslash, splitSep_append _ hsslash, splitSep_not_mem hlslash]
  have hpE : pd.isEmpty = false := by rw [hc0]; rfl
  have hsE : sd.isEmpty = false := by
    obtain ⟨d0, ds0, hd0⟩ := List.exists_cons_of_ne_nil hsne
    rw [hd0]; rfl
  have hdots : ∀ s ∈ [[], pd, sd, ld], s ≠ ['.'] ∧ s ≠ ['.', '.'] := by
    intro s hsm
    simp only [List.mem_cons, List.not_mem_nil, or_false] at hsm
    rcases hsm with rfl | rfl | rfl | rfl
    · exact ⟨by decide, by decide⟩
    · exact ⟨hpd1, hpd2⟩
    · exact ⟨hsd1, hsd2⟩
    · exact ⟨hld1, hld2⟩
  have hres : resolveSegs [[], pd, sd, ld] = [[], pd, sd, ld] := resolveSegs_no_dots hdots
  have hlast : ([[], pd, sd, ld] : List (List Char)).getLast? = some ld := rfl
  have hbs : splitSep '/' ['/'] = [[], []] := rfl
  have htake : ('/' :: (pd ++ ('/' :: (sd ++ ('/' :: ld))))).take 2 ≠ ['/', '/'] := by
    rw [hc0]
    simp [hc0slash]
  have hmid := midFilter_std pd sd ld hpE hsE
  have hunsplit := unsplitModel_abs_path scheme netloc
    ('/' :: (pd ++ ('/' :: (sd ++ ('/' :: ld))))) rfl htake
  have hbl : ([[], []] : List (List Char)).getLast? = some [] := rfl
  have hpdhead : pd.head? ≠ some '/' := by rw [hc0]; simp [hc0slash]
  simp only [urljoinParts, h1, h2, h3, hbs, hsplit]
  simp [hbl, hheadne, hpdhead, hpne, hmid, hres, hlast, hld1, hld2, intercalate_four,
    hunsplit]

/-- The URL built by `_log_to_endpoint_value` for a plain log name under a
plain base-path segment and service id is header-plus-segments, ending in
the log name. -/
theorem endpointUrl_plain_eval (scheme netloc p svc l : String)
    (hs : ':' ∉ scheme.data) (hn : '/' ∉ netloc.data)
    (hp : plainSeg p) (_hpc : ':' ∉ p.data) (hsvc : plainSeg svc) (hl : plainSeg l) :
    (endpointUrl (scheme ++ "://" ++ netloc ++ "/") p svc l).data
      = (urlHeader scheme.data netloc.data
          ++ ('/' :: (p.data ++ ('/' :: (svc.data ++ ['/']))))) ++ l.data := by
  have hlit : ("://" : String).data = [':', '/', '/'] := rfl
  have hlit2 : ("/" : String).data = ['/'] := rfl
  have hbase : (scheme ++ "://" ++ netloc ++ "/").data
      = scheme.data ++ ':' :: '/' :: '/' :: (netloc.data ++ '/' :: []) := by
    simp [String.data_append, hlit, hlit2]
  have href2 : (p ++ "/" ++ svc ++ "/" ++ l).data
      = p.data ++ '/' :: (svc.data ++ '/' :: l.data) := by
    simp [String.data_append, hlit2]
  have hbne : (scheme ++ "://" ++ netloc ++ "/").data ≠ [] := by
    rw [hbase]
    simp
  have hrne : (p ++ "/" ++ svc ++ "/" ++ l).data ≠ [] := by
    rw [href2]
    simp
  have hpb := parseBase_std scheme.data netloc.data [] hs hn
  have hjoin := urljoinParts_plain scheme.data netloc.data p.data svc.data l.data hp hsvc hl
  simp only [endpointUrl, urljoinModel, hbne, hrne, if_neg, if_false]
  rw [hbase, href2] at *
  simp only [hpb]
  simpa [List.append_assoc] using hjoin

/-- C10 counterexample: the log names `"a"` and `"a#"` are distinct, yet
`_log_to_endpoint_value` maps both to the same URL (an empty URL fragment
is dropped by urljoin), so `toEndpointView` is not injective on log names
in general. -/
theorem endpoint_urls_collide :
    ("a" : String) ≠ "a#"
    ∧ (logToEndpointValue "http://127.0.0.1:5000/" exSourceHash "service-logs").logs
      = [("a", "http://127.0.0.1:5000/service-logs/svc/a"),
         ("a#", "http://127.0.0.1:5000/service-logs/svc/a")] := by
  constructor
  · decide
  · rfl

/-- C10 amended: within one source, the per-log URL map of
`_log_to_endpoint_value` is injective on log names as long as the names
(and the base-path segment and service id) are plain path segments —
nonempty, not `.` or `..`, free of `/`, `;`, `?`, `#` (and the base-path
segment free of `:`) — against a base URL of the form `scheme://netloc/`;
names outside this set can collide (see the counterexample). -/
theorem endpointUrl_plain_names_distinct (scheme netloc p svc l1 l2 : String)
    (hs : ':' ∉ scheme.data) (hn : '/' ∉ netloc.data)
    (hp : plainSeg p) (hpc : ':' ∉ p.data) (hsvc : plainSeg svc)
    (h1 : plainSeg l1) (h2 : plainSeg l2) (hne : l1 ≠ l2) :
    endpointUrl (scheme ++ "://" ++ netloc ++ "/") p svc l1
      ≠ endpointUrl (scheme ++ "://" ++ netloc ++ "/") p svc l2 := by
  intro heq
  have hd := congrArg String.data heq
  rw [endpointUrl_plain_eval scheme netloc p svc l1 hs hn hp hpc hsvc h1,
      endpointUrl_plain_eval scheme netloc p svc l2 hs hn hp hpc hsvc h2] at hd
  exact hne (String.ext (List.append_cancel_left hd))

/-- Witness for the amended C10: two ordinary log file names get distinct
URLs. -/
theorem endpointUrl_plain_names_distinct_witness :
    plainSeg "access.log" ∧ plainSeg "error.log" ∧ ("access.log" : String) ≠ "error.log"
    ∧ endpointUrl ("http" ++ "://" ++ "127.0.0.1:5000" ++ "/") "service-logs" "svc"
        "access.log"
      ≠ endpointUrl ("http" ++ "://" ++ "127.0.0.1:5000" ++ "/") "service-logs" "svc"
        "error.log" :=
  ⟨⟨by decide, by decide, by decide, by decide⟩,
   ⟨by decide, by decide, by decide, by decide⟩,
   by decide,
   endpointUrl_plain_names_distinct "http" "127.0.0.1:5000" "service-logs" "svc"
      "access.log" "error.log" (by decide) (by decide)
      ⟨by decide, by decide, by decide, by decide⟩
      (by decide)
      ⟨by decide, by decide, by decide, by decide⟩
      ⟨by decide, by decide, by decide, by decide⟩
      ⟨by decide, by decide, by decide, by decide⟩
      (by decide)⟩

end BentoLog
